import Mathlib

/-!
Shallow embedding of the `recount` crate (a small beancount-style ledger:
tokenizer → parser → in-memory accounts document) and proofs about it.

Modelling conventions:
* `rust_decimal::Decimal` values are embedded as `ℚ`.  The crate's arithmetic
  on `Decimal` is exact fixed-point decimal arithmetic, so every value that
  actually arises is a rational and `+`, `*`, `-`, `abs` and the order agree
  with the embedding.
* Strings are `String`, vectors are `List`, `Option`/`Result` are
  `Option`/`Except`.
* Functions taking `&mut self` are embedded by explicit state passing: they
  return the `Result` together with the (possibly updated) document.
-/

deriving instance DecidableEq for Except

/-- `types::AccountType` (src/types.rs). -/
inductive AccountType where
  | equity
  | liability
  | asset
  | income
  | expense
deriving DecidableEq

/-- `types::AccountId` (src/types.rs): account identity is the pair of name
and type, compared structurally. -/
structure AccountId where
  name : String
  type_ : AccountType
deriving DecidableEq

/-- `types::Amount` (src/types.rs). -/
structure Amount where
  currency : String
  amount : ℚ
deriving DecidableEq

/-- Calendar date.  Modelled from the external `date` crate used by the
repository: a year/month/day triple. -/
structure Date where
  year : Nat
  month : Nat
  day : Nat
deriving DecidableEq

/-- Modelled from the external `date` crate: `<` on dates is calendar order,
i.e. lexicographic on (year, month, day). -/
def Date.ltb (a b : Date) : Bool :=
  decide (a.year < b.year) ||
    (decide (a.year = b.year) &&
      (decide (a.month < b.month) ||
        (decide (a.month = b.month) && decide (a.day < b.day))))

/-- `accounts_doc::Account`. -/
structure Account where
  id : AccountId
  currency : String
  opening_date : Date
deriving DecidableEq

/-- `accounts_doc::RegularPosting`. -/
structure RegularPosting where
  account_id : AccountId
  amount : ℚ
  currency : String
deriving DecidableEq

/-- `accounts_doc::ConversionPosting`. -/
structure ConversionPosting where
  account_id : AccountId
  account_amount : ℚ
  account_currency : String
  rate : ℚ
  tx_currency : String
deriving DecidableEq

/-- `accounts_doc::Posting`. -/
inductive Posting where
  | auto (id : AccountId)
  | regular (p : RegularPosting)
  | conversion (p : ConversionPosting)
deriving DecidableEq

/-- `accounts_doc::PostingInfo`. -/
structure PostingInfo where
  account_currency : String
  tx_amount : ℚ
  tx_currency : String
deriving DecidableEq

/-- `Posting::account_id`. -/
def Posting.account_id : Posting → AccountId
  | .auto id => id
  | .regular p => p.account_id
  | .conversion p => p.account_id

/-- `Posting::account_amount`. -/
def Posting.account_amount : Posting → Option ℚ
  | .auto _ => none
  | .regular p => some p.amount
  | .conversion p => some p.account_amount

/-- `Posting::info`. -/
def Posting.info : Posting → Option PostingInfo
  | .auto _ => none
  | .regular p => some ⟨p.currency, p.amount, p.currency⟩
  | .conversion p => some ⟨p.account_currency, p.account_amount * p.rate, p.tx_currency⟩

/-- `accounts_doc::Transaction`.  The source names the first two fields
`_date` and `_description` (the leading underscore marks them as not yet
read by the crate itself); the `balance` field is the resolved imbalance:
the running transaction-currency total of all non-auto postings at the
moment the transaction was accepted. -/
structure Transaction where
  _date : Date
  _description : String
  balance : ℚ
  postings : List Posting
deriving DecidableEq

/-- `Transaction::balance` (the method; named `balanceOn` here because the
struct field of the same name occupies `Transaction.balance`).  Sum of all
postings to `account` in the account currency; an auto-posting contributes
the amount required to balance the transaction. -/
def Transaction.balanceOn (t : Transaction) (account : AccountId) : Option ℚ :=
  let filtered := t.postings.filter (fun p => p.account_id == account)
  if filtered.isEmpty then
    none
  else
    some (filtered.foldl (fun s p => s + (p.account_amount.getD (-t.balance))) 0)

/-- `accounts_doc::AccountsDocument`. -/
structure AccountsDocument where
  accounts : List Account
  transactions : List Transaction
deriving DecidableEq

/-- `AccountsDocument::new`. -/
def AccountsDocument.new : AccountsDocument := ⟨[], []⟩

/-- `accounts_doc::AddTransactionError`. -/
inductive AddTransactionError where
  | AccountNotFound
  | AccountNotOpen
  | IncorrectTransactionCurrency
  | IncorrectAccountCurrency
  | NotBalanced
  | MoreThanOneAutoPosting
deriving DecidableEq

/-- `accounts_doc::OpenAccountError`. -/
inductive OpenAccountError where
  | AccountAlreadyExists
deriving DecidableEq

/-- `AccountsDocument::open_an_account`; on success returns the updated
document (the source pushes onto `self.accounts`). -/
def AccountsDocument.open_an_account (doc : AccountsDocument) (account : Account) :
    Except OpenAccountError AccountsDocument :=
  if doc.accounts.any (fun a => a.id == account.id) then
    .error .AccountAlreadyExists
  else
    .ok { doc with accounts := doc.accounts ++ [account] }

/-- `AccountsDocument::find_account`. -/
def AccountsDocument.find_account (doc : AccountsDocument) (account_id : AccountId) :
    Option Account :=
  doc.accounts.find? (fun a => a.id == account_id)

/-- `AccountsDocument::account_exists`. -/
def AccountsDocument.account_exists (doc : AccountsDocument) (account : AccountId) : Bool :=
  doc.accounts.any (fun a => a.id == account)

/-- `accounts_doc::TOLERANCE = dec!(0.005)` (= 5/1000; written with `mkRat`
to keep the definition kernel-evaluable). -/
def TOLERANCE : ℚ := mkRat 5 1000

/-- `Decimal::abs()` of the external `rust_decimal` crate: the absolute
value (spelled out so that it is kernel-evaluable; `ratAbs_eq_abs` below
identifies it with `|·|`). -/
def ratAbs (q : ℚ) : ℚ := if q < 0 then -q else q

/-- The validation `for` loop of `AccountsDocument::add_transaction`
(src/accounts_doc.rs lines 225-253), with its three accumulators
(`running_total`, `auto_posting`, `currency`) made explicit.  Each early
`return Err(..)` of the loop body becomes an `Except.error`. -/
def AccountsDocument.addTxLoop (doc : AccountsDocument) (date : Date) :
    List Posting → ℚ → Option (Posting × Account) → Option String →
    Except AddTransactionError (ℚ × Option (Posting × Account) × Option String)
  | [], running_total, auto_posting, currency => .ok (running_total, auto_posting, currency)
  | posting :: rest, running_total, auto_posting, currency =>
    match doc.find_account posting.account_id with
    | none => .error .AccountNotFound
    | some account =>
      if date.ltb account.opening_date then
        .error .AccountNotOpen
      else
        match posting.info with
        | some post_info =>
          if account.currency ≠ post_info.account_currency then
            .error .IncorrectAccountCurrency
          else
            match currency with
            | some c =>
              if c = post_info.tx_currency then
                doc.addTxLoop date rest (running_total + post_info.tx_amount) auto_posting
                  currency
              else
                .error .IncorrectTransactionCurrency
            | none =>
              doc.addTxLoop date rest (running_total + post_info.tx_amount) auto_posting
                (some post_info.tx_currency)
        | none =>
          if auto_posting.isSome then
            .error .MoreThanOneAutoPosting
          else
            doc.addTxLoop date rest running_total (some (posting, account)) currency

/-- `AccountsDocument::add_transaction`.  The source takes `&mut self` and
returns `Result<(), AddTransactionError>`; the embedding returns the result
together with the document after the call (the single mutation,
`self.transactions.push(..)`, happens only after the whole posting list has
been validated). -/
def AccountsDocument.add_transaction (doc : AccountsDocument) (date : Date)
    (description : String) (postings : List Posting) :
    Except AddTransactionError Unit × AccountsDocument :=
  match doc.addTxLoop date postings 0 none none with
  | .error e => (.error e, doc)
  | .ok (running_total, auto_posting, currency) =>
    let pushed : AccountsDocument :=
      { doc with transactions := doc.transactions ++ [⟨date, description, running_total, postings⟩] }
    match auto_posting with
    | some (_, account) =>
      -- `currency.is_some_and(|c| c != account.currency)`
      match currency with
      | some c =>
        if c ≠ account.currency then (.error .IncorrectTransactionCurrency, doc)
        else (.ok (), pushed)
      | none => (.ok (), pushed)
    | none =>
      if ratAbs running_total > TOLERANCE then (.error .NotBalanced, doc)
      else (.ok (), pushed)

/-- `AccountsDocument::balance`. -/
def AccountsDocument.balance (doc : AccountsDocument) (account : AccountId) : Option ℚ :=
  if !doc.account_exists account then
    none
  else
    some (doc.transactions.foldl (fun s t => s + ((t.balanceOn account).getD 0)) 0)

/-- `AccountsDocument::balances` / the `AccountBalances` iterator, collected
into a list: one `(AccountId, Amount)` pair per element of `doc.accounts`,
in order.  The iterator's `.expect("we know this account exists")` cannot
fire because the account being queried is drawn from `doc.accounts`
(lemma `balance_of_mem` below); `getD 0` stands for that `expect`. -/
def AccountsDocument.balancesList (doc : AccountsDocument) : List (AccountId × Amount) :=
  doc.accounts.map (fun a => (a.id, ⟨a.currency, (doc.balance a.id).getD 0⟩))

/-! ### Claim-side (specification) definitions

These definitions are written from the wording of the specification, to be
compared with the embedded code above. -/

/-- Spec side: whether a posting is an auto-posting. -/
def Posting.isAuto : Posting → Bool
  | .auto _ => true
  | _ => false

/-- Spec side: a posting's transaction-currency amount as the specification
describes it — the stated amount for a Regular posting, `account_amount *
rate` for a Conversion posting, and 0 for an Auto posting (no stated
amount). -/
def Posting.txAmount : Posting → ℚ
  | .auto _ => 0
  | .regular p => p.amount
  | .conversion p => p.account_amount * p.rate

/-- Spec side: the signed sum of the postings' transaction-currency
amounts. -/
def txCurrencySum (postings : List Posting) : ℚ :=
  (postings.map Posting.txAmount).sum

/-- Spec side: the contribution of one posting of transaction `t` to its
account's balance, as the specification describes it — a Regular posting
contributes its stated amount, a Conversion posting its `account_amount`
(pre-conversion), an Auto posting the negation of the transaction's stored
`resolved_imbalance` (the `balance` field). -/
def Transaction.contribution (t : Transaction) : Posting → ℚ
  | .auto _ => -t.balance
  | .regular p => p.amount
  | .conversion p => p.account_amount

/-- Spec side: the balance of account `id`: the signed sum, over every
stored transaction, of the contributions of that transaction's postings
whose account id equals `id`. -/
def specAccountTotal (doc : AccountsDocument) (id : AccountId) : ℚ :=
  (doc.transactions.map
    (fun t => ((t.postings.filter (fun p => p.account_id == id)).map t.contribution).sum)).sum

/-! ### Tokenizer (src/tokenizer.rs)

The `Tokenizer` scans a text buffer with a byte cursor; the embedding uses a
`List Char` buffer and a character-index cursor (the inputs of interest are
ASCII, where the two coincide; the source itself notes its positions are
byte-based).  Each anchored regex of the source is embedded as a hand-written
matcher on the remaining buffer with the same match semantics (leftmost-first
alternation, greedy repetition; where a greedy repetition is followed by a
character class disjoint from the repeated class, greedy matching without
backtracking is exact). -/

/-- `tokenizer::TokenizeError`. -/
structure TokenizeError where
  msg : String
  line : Nat
  column : Nat
deriving DecidableEq

/-- `tokenizer::TokenKind` (`At` is `atSign` here; `at` is reserved). -/
inductive TokenKind where
  | date (s : String)
  | amount (a : Amount)
  | directiveOpen
  | directivePostTx
  | account (id : AccountId)
  | currency (s : String)
  | atSign
  | newline
  | optionLine
  | txDescription
deriving DecidableEq

/-- `tokenizer::Token`. -/
structure Token where
  kind : TokenKind
  line : Nat
  column : Nat
deriving DecidableEq

/-- Models `str::lines().count()` on the prefix before the cursor: one line
per newline, plus a final line when the text does not end with a newline. -/
def linesCount (s : List Char) : Nat :=
  if s.isEmpty then 0
  else s.count '\n' + (if s.getLast? = some '\n' then 0 else 1)

/-- `Tokenizer::current_line` (src/tokenizer.rs lines 158-179): 1 at the
start of the buffer; otherwise `lines().count()` of the prefix, plus one
when the prefix ends with a newline. -/
def currentLine (buffer : List Char) (cursor : Nat) : Nat :=
  if cursor = 0 then 1
  else
    let p := buffer.take cursor
    if p.getLast? = some '\n' then linesCount p + 1 else linesCount p

/-- Index of the last newline character of `s` (models
`str::rfind('\n')`). -/
def lastNewlinePos : List Char → Option Nat
  | [] => none
  | c :: cs =>
    match lastNewlinePos cs with
    | some j => some (j + 1)
    | none => if c = '\n' then some 0 else none

/-- `Tokenizer::current_column` (src/tokenizer.rs lines 184-202): 1 at the
start of the buffer; otherwise the cursor minus the index of the most
recent newline before it (or minus 0 when there is none). -/
def currentColumn (buffer : List Char) (cursor : Nat) : Nat :=
  if cursor = 0 then 1
  else cursor - ((lastNewlinePos (buffer.take cursor)).getD 0)

/-- `Tokenizer::current_line_column`. -/
def currentLineColumn (buffer : List Char) (cursor : Nat) : Nat × Nat :=
  (currentLine buffer cursor, currentColumn buffer cursor)

/-- Horizontal whitespace, the class `[ \t]` (WHITESPACE_REGEX body). -/
def isWsTab (c : Char) : Bool := c == ' ' || c == '\t'

/-- The class `[ \t\n\r]` used in every recognizer's trailing-boundary group
`(?:[ \t\n\r]|$)`. -/
def isBoundaryChar (c : Char) : Bool := c == ' ' || c == '\t' || c == '\n' || c == '\r'

/-- The boundary group `(?:[ \t\n\r]|$)` applied to the text following a
candidate match. -/
def boundaryOk : List Char → Bool
  | [] => true
  | c :: _ => isBoundaryChar c

/-- The regex class `\s` of the `regex` crate: `[ \t\n\v\f\r ]`. -/
def isSpaceRe (c : Char) : Bool :=
  c == ' ' || c == '\t' || c == '\n' || c == '\r' || c == '\x0B' || c == '\x0C'

/-- ASCII `[A-Z]`. -/
def isUpperAscii (c : Char) : Bool := decide ('A' ≤ c) && decide (c ≤ 'Z')

/-- ASCII `[a-z]`. -/
def isLowerAscii (c : Char) : Bool := decide ('a' ≤ c) && decide (c ≤ 'z')

/-- The account-name class `[A-Za-z0-9-]`. -/
def isNameChar (c : Char) : Bool :=
  isUpperAscii c || isLowerAscii c || c.isDigit || c == '-'

/-- OPTION_REGEX `^(option\s+"[^"]+"\s+"[^"]+")(?:[ \t\n\r]|$)`; returns the
length of capture group 1 (the cursor advance). -/
def optionMatch (s : List Char) : Option Nat :=
  if ("option".toList).isPrefixOf s then
    let r1 := s.drop 6
    let w1 := (r1.takeWhile isSpaceRe).length
    if w1 = 0 then none
    else
      match r1.drop w1 with
      | '"' :: r2 =>
        let b1 := (r2.takeWhile fun c => c != '"').length
        if b1 = 0 then none
        else
          match r2.drop b1 with
          | '"' :: r3 =>
            let w2 := (r3.takeWhile isSpaceRe).length
            if w2 = 0 then none
            else
              match r3.drop w2 with
              | '"' :: r4 =>
                let b2 := (r4.takeWhile fun c => c != '"').length
                if b2 = 0 then none
                else
                  match r4.drop b2 with
                  | '"' :: r5 =>
                    if boundaryOk r5 then some (6 + w1 + 1 + b1 + 1 + w2 + 1 + b2 + 1)
                    else none
                  | _ => none
              | _ => none
          | _ => none
      | _ => none
  else none

/-- COMMENT_REGEX `^;[^\r\n]*`; returns the length of the match after the
leading `;` (so the full advance is that value plus one). -/
def commentMatch (s : List Char) : Option Nat :=
  match s with
  | ';' :: r => some ((r.takeWhile fun c => !(c == '\r' || c == '\n')).length)
  | _ => none

/-- DATE_REGEX `^(\d{4}-\d{2}-\d{2})(?:[ \t\n\r]|$)`; returns the ten
characters of capture group 1. -/
def dateMatch (s : List Char) : Option (List Char) :=
  match s with
  | y1 :: y2 :: y3 :: y4 :: '-' :: m1 :: m2 :: '-' :: d1 :: d2 :: rest =>
    if (y1.isDigit && y2.isDigit && y3.isDigit && y4.isDigit &&
        m1.isDigit && m2.isDigit && d1.isDigit && d2.isDigit) && boundaryOk rest then
      some [y1, y2, y3, y4, '-', m1, m2, '-', d1, d2]
    else none
  | _ => none

/-- Number of leading repetitions of the group `(?:,\d{3})` (greedy star of
AMOUNT_REGEX's thousands separators). -/
def groupReps : List Char → Nat
  | ',' :: d1 :: d2 :: d3 :: rest =>
    if d1.isDigit && d2.isDigit && d3.isDigit then groupReps rest + 1 else 0
  | _ => 0

/-- One backtracking candidate for AMOUNT_REGEX: the numeric part of the
match is the first `n` characters of `s1` (digits and thousands
separators); tries the rest of the pattern
`(\.\d+)?[ \t]*([A-Z]{3,})(?:[ \t\n\r]|$)` after it.  On success returns
(group 1 without its sign, group 2, advance to the end of group 2 counted
from the start of the whole match including the sign).  The optional
fraction and the two greedy runs need no further backtracking: each is
followed by a character class disjoint from its own. -/
def tryAmountCand (sgn : List Char) (signLen : Nat) (s1 : List Char) (n : Nat) :
    Option (List Char × List Char × Nat) :=
  let rest0 := s1.drop n
  let fracLen :=
    match rest0 with
    | '.' :: r =>
      let fd := (r.takeWhile Char.isDigit).length
      if fd = 0 then 0 else fd + 1
    | _ => 0
  let rest1 := rest0.drop fracLen
  let sp := (rest1.takeWhile isWsTab).length
  let rest2 := rest1.drop sp
  let cur := rest2.takeWhile isUpperAscii
  if decide (3 ≤ cur.length) && boundaryOk (rest2.drop cur.length) then
    some (sgn ++ s1.take (n + fracLen), cur, signLen + n + fracLen + sp + cur.length)
  else none

/-- AMOUNT_REGEX
`^(-?(?:\d{1,3}(?:,\d{3})*|\d+)(?:\.\d+)?)[ \t]*([A-Z]{3,})(?:[ \t\n\r]|$)`.
Returns (capture group 1, capture group 2, end of capture group 2).  The
alternation `\d{1,3}(?:,\d{3})*|\d+` is matched leftmost-first with
backtracking: first branch candidates with `{1,3}` greedy and the star
greedy, then second-branch candidates with `\d+` greedy. -/
def amountMatch (s : List Char) : Option (List Char × List Char × Nat) :=
  let (sgn, s1, signLen) :=
    match s with
    | '-' :: r => (['-'], r, 1)
    | _ => (([] : List Char), s, 0)
  let L := (s1.takeWhile Char.isDigit).length
  if L = 0 then none
  else
    let aCands :=
      ([3, 2, 1].filter fun k => decide (k ≤ L)).flatMap fun k =>
        ((List.range (groupReps (s1.drop k) + 1)).reverse).map fun r => k + 4 * r
    let bCands := ((List.range L).reverse).map fun j => j + 1
    (aCands ++ bCands).findSome? (tryAmountCand sgn signLen s1)

/-- DIRECTIVE_OPEN_REGEX `^(open)(?:[ \t\n\r]|$)`. -/
def openMatch (s : List Char) : Option Nat :=
  if ("open".toList).isPrefixOf s && boundaryOk (s.drop 4) then some 4 else none

/-- DIRECTIVE_POST_TX_REGEX `^(\*)(?:[ \t\n\r]|$)`. -/
def postTxMatch (s : List Char) : Option Nat :=
  match s with
  | '*' :: r => if boundaryOk r then some 1 else none
  | _ => none

/-- The five account-type labels of ACCOUNT_REGEX, in the source's
alternation order, with the `AccountType` each parses to. -/
def accountTypeLits : List (List Char × AccountType) :=
  [("Assets".toList, .asset), ("Liabilities".toList, .liability),
   ("Expenses".toList, .expense), ("Income".toList, .income),
   ("Equity".toList, .equity)]

/-- ACCOUNT_REGEX
`^(Assets|Liabilities|Expenses|Income|Equity):([A-Z][A-Za-z0-9-]+)(?:[ \t\n\r]|$)`.
Returns the `AccountId` and the end of capture group 2 (the cursor
advance).  The five labels are mutually prefix-free, so leftmost-first
alternation finds the unique label that is a prefix. -/
def accountMatch (s : List Char) : Option (AccountId × Nat) :=
  accountTypeLits.findSome? fun lt =>
    if lt.1.isPrefixOf s then
      match s.drop lt.1.length with
      | ':' :: c0 :: r2 =>
        if isUpperAscii c0 then
          let restRun := r2.takeWhile isNameChar
          if restRun.length = 0 then none
          else if boundaryOk (r2.drop restRun.length) then
            some (⟨String.mk (c0 :: restRun), lt.2⟩, lt.1.length + 1 + 1 + restRun.length)
          else none
        else none
      | _ => none
    else none

/-- CURRENCY_REGEX `^([A-Z]+)(?:[ \t\n\r]|$)`. -/
def currencyMatch (s : List Char) : Option (List Char) :=
  let run := s.takeWhile isUpperAscii
  if run.length = 0 then none
  else if boundaryOk (s.drop run.length) then some run
  else none

/-- TX_DESCRIPTION_REGEX `^("[^"]+")(?:[ \t\n\r]|$)`; returns the length of
capture group 1 (the quoted text is not part of the token). -/
def txDescriptionMatch (s : List Char) : Option Nat :=
  match s with
  | '"' :: r =>
    let b := (r.takeWhile fun c => c != '"').length
    if b = 0 then none
    else
      match r.drop b with
      | '"' :: r2 => if boundaryOk r2 then some (1 + b + 1) else none
      | _ => none
  | _ => none

/-- AT_REGEX `^(@)(?:[ \t\n\r]|$)`. -/
def atMatch (s : List Char) : Option Nat :=
  match s with
  | '@' :: r => if boundaryOk r then some 1 else none
  | _ => none

/-- NEWLINE_REGEX `^\r?\n`. -/
def newlineMatch (s : List Char) : Option Nat :=
  match s with
  | '\r' :: '\n' :: _ => some 2
  | '\n' :: _ => some 1
  | _ => none

/-- Value of a digit string. -/
def digitsToNat (l : List Char) : Nat :=
  l.foldl (fun n c => 10 * n + (c.toNat - '0'.toNat)) 0

/-- Modelled from the external `rust_decimal` crate: parsing a decimal
string of the shape `-?\d+(\.\d+)?` (thousands separators already removed).
A 96-bit mantissa and a scale of at most 28 are representable; anything
larger fails to parse (the source maps that failure to the lexical error
"decimal has too many digits"). -/
def decimalFromStr (s : List Char) : Option ℚ :=
  let (neg, s1) :=
    match s with
    | '-' :: r => (true, r)
    | _ => (false, s)
  let intPart := s1.takeWhile Char.isDigit
  let rest := s1.drop intPart.length
  let fracPart :=
    match rest with
    | '.' :: r => r.takeWhile Char.isDigit
    | _ => []
  let mantissa := digitsToNat (intPart ++ fracPart)
  let scale := fracPart.length
  if mantissa < 2 ^ 96 ∧ scale ≤ 28 then
    some (mkRat (if neg then -(mantissa : ℤ) else (mantissa : ℤ)) (10 ^ scale))
  else none

/-- `Tokenizer::next_token` (src/tokenizer.rs lines 219-393).  Returns the
token together with the cursor after it.  The recognizers are tried in the
source's order; whitespace and comments advance the cursor and rescan
(`self.next_token()`), embedded with an explicit fuel that only bounds that
rescan depth — every rescan advances the cursor by at least one character,
so calling with fuel exceeding the buffer length never exhausts it. -/
def nextToken : Nat → List Char → Nat → Except TokenizeError (Option (Token × Nat))
  | 0, _, _ => .ok none
  | fuel + 1, buffer, cursor =>
    if cursor ≥ buffer.length then .ok none
    else
      let rem := buffer.drop cursor
      let ws := (rem.takeWhile isWsTab).length
      if ws ≠ 0 then nextToken fuel buffer (cursor + ws)
      else
        match optionMatch rem with
        | some n =>
          let lc := currentLineColumn buffer cursor
          .ok (some (⟨.optionLine, lc.1, lc.2⟩, cursor + n))
        | none =>
        match commentMatch rem with
        | some n => nextToken fuel buffer (cursor + (n + 1))
        | none =>
        match dateMatch rem with
        | some ds =>
          let lc := currentLineColumn buffer cursor
          .ok (some (⟨.date (String.mk ds), lc.1, lc.2⟩, cursor + 10))
        | none =>
        match amountMatch rem with
        | some amt =>
          match decimalFromStr (amt.1.filter fun c => c != ',') with
          | none =>
            let lc := currentLineColumn buffer cursor
            .error ⟨"decimal has too many digits", lc.1, lc.2⟩
          | some q =>
            let lc := currentLineColumn buffer cursor
            .ok (some (⟨.amount ⟨String.mk amt.2.1, q⟩, lc.1, lc.2⟩, cursor + amt.2.2))
        | none =>
        match openMatch rem with
        | some n =>
          let lc := currentLineColumn buffer cursor
          .ok (some (⟨.directiveOpen, lc.1, lc.2⟩, cursor + n))
        | none =>
        match postTxMatch rem with
        | some n =>
          let lc := currentLineColumn buffer cursor
          .ok (some (⟨.directivePostTx, lc.1, lc.2⟩, cursor + n))
        | none =>
        match accountMatch rem with
        | some acct =>
          let lc := currentLineColumn buffer cursor
          .ok (some (⟨.account acct.1, lc.1, lc.2⟩, cursor + acct.2))
        | none =>
        match currencyMatch rem with
        | some run =>
          let lc := currentLineColumn buffer cursor
          .ok (some (⟨.currency (String.mk run), lc.1, lc.2⟩, cursor + run.length))
        | none =>
        match txDescriptionMatch rem with
        | some n =>
          let lc := currentLineColumn buffer cursor
          .ok (some (⟨.txDescription, lc.1, lc.2⟩, cursor + n))
        | none =>
        match atMatch rem with
        | some n =>
          let lc := currentLineColumn buffer cursor
          .ok (some (⟨.atSign, lc.1, lc.2⟩, cursor + n))
        | none =>
        match newlineMatch rem with
        | some n =>
          let lc := currentLineColumn buffer cursor
          .ok (some (⟨.newline, lc.1, lc.2⟩, cursor + n))
        | none =>
          let lc := currentLineColumn buffer cursor
          .error ⟨"unexpected character sequence", lc.1, lc.2⟩

/-- Repeatedly pull `nextToken` until end of input or a lexical error
(`Tokenizer`'s `Iterator` impl collected into a list).  Fuel bounds the
number of tokens; every token consumes at least one character, so fuel
exceeding the buffer length never exhausts. -/
def tokensAux : Nat → List Char → Nat → Except TokenizeError (List Token)
  | 0, _, _ => .ok []
  | fuel + 1, buffer, cursor =>
    match nextToken (buffer.length + 1) buffer cursor with
    | .error e => .error e
    | .ok none => .ok []
    | .ok (some (t, c)) =>
      match tokensAux fuel buffer c with
      | .error e => .error e
      | .ok ts => .ok (t :: ts)

/-- The full token sequence of a buffer. -/
def tokens (buffer : List Char) : Except TokenizeError (List Token) :=
  tokensAux (buffer.length + 1) buffer 0

/-- Spec side: the reported line is 1 plus the number of newline characters
strictly before the cursor. -/
def specLine (buffer : List Char) (cursor : Nat) : Nat :=
  1 + (buffer.take cursor).count '\n'

/-- Spec side, the claim's column read uniformly: the 1-indexed distance
from the cursor back to the most recent newline — the cursor immediately
after the anchor (the newline, or the start of the buffer when no newline
precedes the cursor) is at distance 1, and each further character adds
one. -/
def specColumnClaim (buffer : List Char) (cursor : Nat) : Nat :=
  match lastNewlinePos (buffer.take cursor) with
  | some j => cursor - j
  | none => cursor + 1

/-- Spec side, amended column: the 1-indexed distance back to the most
recent newline when one precedes the cursor; when none does, the cursor
offset itself, except that the very start of the buffer reports column
1. -/
def specColumnAmended (buffer : List Char) (cursor : Nat) : Nat :=
  match lastNewlinePos (buffer.take cursor) with
  | some j => cursor - j
  | none => if cursor = 0 then 1 else cursor

/-! ### Parser (src/parser.rs)

`parse` consumes the token stream (an iterator of `Result<Token,
TokenizeError>`, embedded as a list) and drives the document mutations.
The source's `'tx_open_loop` / `'posts_loop` loops become mutual recursion
over the remaining stream.  The source calls
`accounts_doc.add_transaction(..).unwrap()` and `date.parse().unwrap()`
inside the transaction branch (its own `//TODO: unwraps` comments); a
failing `unwrap` is a Rust panic, embedded as the distinct outcome
`ParseOutcome.panic`. -/

/-- `parser::ParseError`. -/
structure ParseError where
  msg : String
  line : Nat
  column : Nat
deriving DecidableEq

/-- `impl From<TokenizeError> for ParseError`. -/
def ParseError.ofTokenize (e : TokenizeError) : ParseError :=
  ⟨e.msg, e.line, e.column⟩

/-- The two `unwrap` sites of `parse` that can fail. -/
inductive PanicReason where
  | invalidDate
  | addTransactionFailed (e : AddTransactionError)
deriving DecidableEq

/-- Outcome of `parse`: a document, a returned `ParseError`, or a panic
from one of the source's `unwrap()` calls. -/
inductive ParseOutcome where
  | ok (doc : AccountsDocument)
  | err (e : ParseError)
  | panic (r : PanicReason)
deriving DecidableEq

/-- Modelled from the external `date` crate's string parsing, used by the
source as `date.parse::<Date>()`: accepts `YYYY-MM-DD` with a plausible
month and day, rejecting anything else.  (The crate's exact
days-per-month/leap-year checks are immaterial to every claim; no claim
exercises an invalid date.) -/
def parseDate (s : String) : Option Date :=
  match s.toList with
  | [y1, y2, y3, y4, '-', m1, m2, '-', d1, d2] =>
    if [y1, y2, y3, y4, m1, m2, d1, d2].all Char.isDigit then
      let m := digitsToNat [m1, m2]
      let d := digitsToNat [d1, d2]
      if 1 ≤ m ∧ m ≤ 12 ∧ 1 ≤ d ∧ d ≤ 31 then
        some ⟨digitsToNat [y1, y2, y3, y4], m, d⟩
      else none
    else none
  | _ => none

mutual

/-- The `'tx_open_loop` of `parse` (src/parser.rs line 74): skip newlines,
require a date, dispatch on the directive after it; an exhausted stream
ends the parse successfully. -/
def txOpenLoop (doc : AccountsDocument) : List (Except TokenizeError Token) → ParseOutcome
  | [] => .ok doc
  | .error e :: _ => .err (ParseError.ofTokenize e)
  | .ok t :: rest =>
    match t.kind with
    | .newline => txOpenLoop doc rest
    | .date d => afterDate doc d rest
    | _ => .err ⟨"expected date", t.line, t.column⟩

/-- The directive dispatch of `parse` (src/parser.rs line 87): after a date
token, expect `open` or `*`.  In the catch-all arm the source's `line` and
`column` are the variables bound to 0 at the top of `parse`, so that error
is reported at (0,0). -/
def afterDate (doc : AccountsDocument) (d : String) :
    List (Except TokenizeError Token) → ParseOutcome
  | .ok ⟨.directiveOpen, line, column⟩ :: rest => openDirective doc d line column rest
  | .ok ⟨.directivePostTx, line, column⟩ :: rest => txDirective doc d line column rest
  | .error e :: _ => .err (ParseError.ofTokenize e)
  | _ => .err ⟨"expected either open or post transaction directive", 0, 0⟩

/-- The `open` directive branch of `parse` (src/parser.rs lines 88-140):
expect an account token and a currency token (the source reuses the
message "expected amount" for the latter), call `open_an_account` — whose
failure is reported as "account already exists" at (0,0) — and require a
newline or end of input.  `line`/`column` are the `open` token's
position. -/
def openDirective (doc : AccountsDocument) (d : String) (line column : Nat) :
    List (Except TokenizeError Token) → ParseOutcome
  | [] => .err ⟨"expected account", line, column⟩
  | .error e :: _ => .err (ParseError.ofTokenize e)
  | .ok t :: rest =>
    match t.kind with
    | .account account =>
      match rest with
      | [] => .err ⟨"expected amount", t.line, t.column⟩
      | .error e :: _ => .err (ParseError.ofTokenize e)
      | .ok t2 :: rest2 =>
        match t2.kind with
        | .currency currency =>
          match parseDate d with
          | none => .panic .invalidDate
          | some dv =>
            match doc.open_an_account ⟨⟨account.name, account.type_⟩, currency, dv⟩ with
            | .error _ => .err ⟨"account already exists", 0, 0⟩
            | .ok doc2 =>
              match rest2 with
              | [] => .ok doc2
              | .error e :: _ => .err (ParseError.ofTokenize e)
              | .ok t3 :: rest3 =>
                match t3.kind with
                | .newline => txOpenLoop doc2 rest3
                | _ => .err ⟨"expected newline", t3.line, t3.column⟩
        | _ => .err ⟨"expected amount", t2.line, t2.column⟩
    | _ => .err ⟨"expected account", t.line, t.column⟩

/-- The `*` transaction branch of `parse` (src/parser.rs lines 141-161):
expect a description token and a newline, then enter the posting loop.
`line`/`column` are the `*` token's position. -/
def txDirective (doc : AccountsDocument) (d : String) (line column : Nat) :
    List (Except TokenizeError Token) → ParseOutcome
  | [] => .err ⟨"expected tx description", line, column⟩
  | .error e :: _ => .err (ParseError.ofTokenize e)
  | .ok t :: rest =>
    match t.kind with
    | .txDescription =>
      match rest with
      | [] => .err ⟨"expected newline", t.line, t.column⟩
      | .error e :: _ => .err (ParseError.ofTokenize e)
      | .ok t2 :: rest2 =>
        match t2.kind with
        | .newline => postsLoop doc d t2.line t2.column [] rest2
        | _ => .err ⟨"expected newline", t2.line, t2.column⟩
    | _ => .err ⟨"expected tx description", t.line, t.column⟩

/-- The `'posts_loop` of `parse` (src/parser.rs lines 164-274).  `line` and
`column` are the position of the newline token that opened the posting
block (the bindings in scope when an iteration starts).  A blank line or an
exhausted stream ends the block, after which the source submits the
accumulated postings via `add_transaction(date.parse().unwrap(), "todo",
postings).unwrap()` — note the hard-coded description and the `unwrap`s.
The source's `break 'tx_open_loop` after an end-of-input submission leaves
the top loop with nothing left, which returns the document; that is
embedded directly as `.ok`. -/
def postsLoop (doc : AccountsDocument) (d : String) (line column : Nat)
    (postings : List Posting) : List (Except TokenizeError Token) → ParseOutcome
  | [] =>
    match parseDate d with
    | none => .panic .invalidDate
    | some dv =>
      match doc.add_transaction dv "todo" postings with
      | (.error e, _) => .panic (.addTransactionFailed e)
      | (.ok _, doc2) => .ok doc2
  | .error e :: _ => .err (ParseError.ofTokenize e)
  | .ok t :: rest =>
    match t.kind with
    | .newline =>
      match parseDate d with
      | none => .panic .invalidDate
      | some dv =>
        match doc.add_transaction dv "todo" postings with
        | (.error e, _) => .panic (.addTransactionFailed e)
        | (.ok _, doc2) => txOpenLoop doc2 rest
    | .account account_id =>
      match rest with
      | [] => .err ⟨"expected amount", line, column⟩
      | .error e :: _ => .err (ParseError.ofTokenize e)
      | .ok t2 :: rest2 =>
        match t2.kind with
        | .amount amount =>
          match rest2 with
          | .ok ⟨.newline, _, _⟩ :: rest3 =>
            postsLoop doc d line column
              (postings ++ [.regular ⟨account_id, amount.amount, amount.currency⟩]) rest3
          | .ok ⟨.atSign, atLine, atColumn⟩ :: rest3 =>
            match rest3 with
            | [] => .err ⟨"expected amount", atLine, atColumn⟩
            | .error e :: _ => .err (ParseError.ofTokenize e)
            | .ok t4 :: rest4 =>
              match t4.kind with
              | .amount conversion =>
                match rest4 with
                | [] =>
                  match parseDate d with
                  | none => .panic .invalidDate
                  | some dv =>
                    match doc.add_transaction dv "todo"
                        (postings ++ [.conversion ⟨account_id, amount.amount, amount.currency,
                          conversion.amount, conversion.currency⟩]) with
                    | (.error e, _) => .panic (.addTransactionFailed e)
                    | (.ok _, doc2) => .ok doc2
                | .error e :: _ => .err (ParseError.ofTokenize e)
                | .ok t5 :: rest5 =>
                  match t5.kind with
                  | .newline =>
                    postsLoop doc d line column
                      (postings ++ [.conversion ⟨account_id, amount.amount, amount.currency,
                        conversion.amount, conversion.currency⟩]) rest5
                  | _ => .err ⟨"expected newline", t5.line, t5.column⟩
              | _ => .err ⟨"expected amount", t4.line, t4.column⟩
          | [] =>
            match parseDate d with
            | none => .panic .invalidDate
            | some dv =>
              match doc.add_transaction dv "todo"
                  (postings ++ [.regular ⟨account_id, amount.amount, amount.currency⟩]) with
              | (.error e, _) => .panic (.addTransactionFailed e)
              | (.ok _, doc2) => .ok doc2
          | .error e :: _ => .err (ParseError.ofTokenize e)
          | .ok _ :: _ => .err ⟨"expected newline, end of file or @", t2.line, t2.column⟩
        | _ => .err ⟨"expected amount", t2.line, t2.column⟩
    | _ => .err ⟨"expected account", t.line, t.column⟩

end

/-- `parser::parse` (src/parser.rs line 56): expect the option line, then
run the directive loop on an initially empty document. -/
def parse (ts : List (Except TokenizeError Token)) : ParseOutcome :=
  match ts with
  | [] => .err ⟨"expected option line", 0, 0⟩
  | .error e :: _ => .err (ParseError.ofTokenize e)
  | .ok t :: rest =>
    match t.kind with
    | .optionLine => txOpenLoop AccountsDocument.new rest
    | _ => .err ⟨"expected option line", t.line, t.column⟩

/-- Concrete two-account document (both GBP) used to exercise C5. -/
def docC5 : AccountsDocument :=
  ⟨[⟨⟨"A", .income⟩, "GBP", ⟨2012, 4, 12⟩⟩, ⟨⟨"D", .income⟩, "GBP", ⟨2012, 4, 12⟩⟩], []⟩

/-- C5 postings whose auto account receives no other posting. -/
def psC5solo : List Posting :=
  [.regular ⟨⟨"A", .income⟩, 100, "GBP"⟩, .auto ⟨"D", .income⟩]

/-- C5 postings whose auto account also receives a regular posting. -/
def psC5dup : List Posting :=
  [.regular ⟨⟨"A", .income⟩, 100, "GBP"⟩, .auto ⟨"A", .income⟩]

/-! ### Lemmas about the ledger -/

theorem ratAbs_eq_abs (q : ℚ) : ratAbs q = |q| := by
  unfold ratAbs
  by_cases h : q < 0
  · rw [if_pos h, abs_of_neg h]
  · rw [if_neg h, abs_of_nonneg (not_lt.mp h)]

theorem foldl_add_map_sum {α : Type} (f : α → ℚ) :
    ∀ (l : List α) (s : ℚ), l.foldl (fun acc p => acc + f p) s = s + (l.map f).sum
  | [], s => by simp
  | p :: l, s => by
    rw [List.foldl_cons, foldl_add_map_sum f l (s + f p), List.map_cons, List.sum_cons]
    ring

/-- The per-transaction fold of `Transaction::balance` (with the
`unwrap_or(ZERO)` applied by `AccountsDocument::balance`) computes the sum
of the specification's per-posting contributions over the matching
postings. -/
theorem balanceOn_getD (t : Transaction) (id : AccountId) :
    (t.balanceOn id).getD 0
      = ((t.postings.filter (fun p => p.account_id == id)).map t.contribution).sum := by
  unfold Transaction.balanceOn
  have hfg : (fun p : Posting => p.account_amount.getD (-t.balance)) = t.contribution := by
    funext p
    cases p <;> rfl
  by_cases h : (t.postings.filter (fun p => p.account_id == id)).isEmpty
  · rw [List.isEmpty_iff] at h
    simp [h]
  · simp only [h, Bool.false_eq_true, if_false, Option.getD_some]
    rw [foldl_add_map_sum, hfg, zero_add]

theorem account_exists_iff (doc : AccountsDocument) (id : AccountId) :
    doc.account_exists id = true ↔ ∃ a ∈ doc.accounts, a.id = id := by
  unfold AccountsDocument.account_exists
  simp [List.any_eq_true, beq_iff_eq]

/-- `AccountsDocument::balance` in closed form: `none` unless the account
exists, otherwise the specification's total. -/
theorem balance_eq (doc : AccountsDocument) (id : AccountId) :
    doc.balance id = if doc.account_exists id then some (specAccountTotal doc id) else none := by
  unfold AccountsDocument.balance specAccountTotal
  by_cases h : doc.account_exists id
  · simp only [h, Bool.not_true, Bool.false_eq_true, if_false, if_true]
    rw [foldl_add_map_sum (fun t => (t.balanceOn id).getD 0) doc.transactions 0, zero_add]
    have : (fun t : Transaction => (t.balanceOn id).getD 0)
        = fun t : Transaction =>
            ((t.postings.filter (fun p => p.account_id == id)).map t.contribution).sum :=
      funext fun t => balanceOn_getD t id
    rw [this]
  · simp [h]

theorem balance_of_mem (doc : AccountsDocument) (a : Account) (ha : a ∈ doc.accounts) :
    doc.balance a.id = some (specAccountTotal doc a.id) := by
  rw [balance_eq, if_pos ((account_exists_iff doc a.id).mpr ⟨a, ha, rfl⟩)]

theorem specAccountTotal_append (accounts : List Account) (txs : List Transaction)
    (tx : Transaction) (id : AccountId) :
    specAccountTotal ⟨accounts, txs ++ [tx]⟩ id
      = specAccountTotal ⟨accounts, txs⟩ id
        + ((tx.postings.filter (fun p => p.account_id == id)).map tx.contribution).sum := by
  unfold specAccountTotal
  simp

/-! ### C1, C6, C9 -/

/-- C1: `balance(account_id)` is `None` exactly when no account with that
id has been opened; otherwise it is the signed sum, over every stored
transaction, of the contributions of that transaction's postings whose
account id equals the queried id — a Regular posting contributing its
stated amount, a Conversion posting its `account_amount`, an Auto posting
the negation of the transaction's stored `resolved_imbalance`
(`specAccountTotal` spells out exactly that sum). -/
theorem claim_C1_balance (doc : AccountsDocument) (id : AccountId) :
    ((∃ a ∈ doc.accounts, a.id = id) → doc.balance id = some (specAccountTotal doc id)) ∧
    ((¬ ∃ a ∈ doc.accounts, a.id = id) → doc.balance id = none) := by
  constructor
  · intro h
    rw [balance_eq, if_pos ((account_exists_iff doc id).mpr h)]
  · intro h
    rw [balance_eq, if_neg]
    intro hc
    exact h ((account_exists_iff doc id).mp hc)

/-- Witness for C1 at a concrete document: an opened account with a
regular and an auto posting, and a never-opened account. -/
theorem claim_C1_witness :
    (⟨[⟨⟨"A", .income⟩, "GBP", ⟨2012, 1, 1⟩⟩],
      [⟨⟨2012, 1, 2⟩, "t", 100, [.regular ⟨⟨"A", .income⟩, 100, "GBP"⟩,
        .auto ⟨"A", .income⟩]⟩]⟩ : AccountsDocument).balance ⟨"A", .income⟩
      = some (specAccountTotal
          ⟨[⟨⟨"A", .income⟩, "GBP", ⟨2012, 1, 1⟩⟩],
           [⟨⟨2012, 1, 2⟩, "t", 100, [.regular ⟨⟨"A", .income⟩, 100, "GBP"⟩,
             .auto ⟨"A", .income⟩]⟩]⟩ ⟨"A", .income⟩) ∧
    (⟨[⟨⟨"A", .income⟩, "GBP", ⟨2012, 1, 1⟩⟩],
      [⟨⟨2012, 1, 2⟩, "t", 100, [.regular ⟨⟨"A", .income⟩, 100, "GBP"⟩,
        .auto ⟨"A", .income⟩]⟩]⟩ : AccountsDocument).balance ⟨"B", .income⟩ = none :=
  ⟨(claim_C1_balance _ _).1 (by decide), (claim_C1_balance _ _).2 (by decide)⟩

/-- C6: `balances()` yields exactly one `(AccountId, Amount)` pair per
opened account, in account-open order, where the pair's amount is the
value of `balance` for that account and its currency is the account's own
currency. -/
theorem claim_C6_balances (doc : AccountsDocument) :
    doc.balancesList
      = doc.accounts.map (fun a => (a.id, (⟨a.currency, specAccountTotal doc a.id⟩ : Amount))) ∧
    ∀ a ∈ doc.accounts, doc.balance a.id = some (specAccountTotal doc a.id) := by
  constructor
  · unfold AccountsDocument.balancesList
    apply List.map_congr_left
    intro a ha
    rw [balance_of_mem doc a ha]
    rfl
  · intro a ha
    exact balance_of_mem doc a ha

/-- Witness for C6 at a concrete two-account document. -/
theorem claim_C6_witness :
    (⟨[⟨⟨"A", .income⟩, "GBP", ⟨2012, 1, 1⟩⟩, ⟨⟨"B", .asset⟩, "USD", ⟨2012, 1, 1⟩⟩],
      []⟩ : AccountsDocument).balance ⟨"B", .asset⟩
      = some (specAccountTotal
          ⟨[⟨⟨"A", .income⟩, "GBP", ⟨2012, 1, 1⟩⟩, ⟨⟨"B", .asset⟩, "USD", ⟨2012, 1, 1⟩⟩],
           []⟩ ⟨"B", .asset⟩) :=
  (claim_C6_balances _).2 ⟨⟨"B", .asset⟩, "USD", ⟨2012, 1, 1⟩⟩ (by decide)

/-- C9: adding a transaction with an empty posting list always succeeds,
appends a transaction with zero resolved imbalance and no postings, and
changes no account's balance. -/
theorem claim_C9_empty_postings (doc : AccountsDocument) (date : Date) (descr : String) :
    (doc.add_transaction date descr []).1 = .ok () ∧
    (doc.add_transaction date descr []).2.transactions
      = doc.transactions ++ [⟨date, descr, 0, []⟩] ∧
    ∀ id, (doc.add_transaction date descr []).2.balance id = doc.balance id := by
  have hrun : doc.add_transaction date descr []
      = (.ok (), { doc with transactions := doc.transactions ++ [⟨date, descr, 0, []⟩] }) := by
    unfold AccountsDocument.add_transaction
    have h0 : doc.addTxLoop date [] 0 none none = .ok (0, none, none) := rfl
    rw [h0]
    have habs : ¬ ratAbs (0 : ℚ) > TOLERANCE := by decide!
    simp [habs]
  refine ⟨by rw [hrun], by rw [hrun], fun id => ?_⟩
  rw [hrun, balance_eq, balance_eq]
  have hex : ({ doc with transactions := doc.transactions ++ [⟨date, descr, 0, []⟩] }
      : AccountsDocument).account_exists id = doc.account_exists id := rfl
  rw [hex]
  by_cases h : doc.account_exists id
  · rw [if_pos h, if_pos h]
    have : ({ doc with transactions := doc.transactions ++ [⟨date, descr, 0, []⟩] }
        : AccountsDocument)
        = ⟨doc.accounts, doc.transactions ++ [⟨date, descr, 0, []⟩]⟩ := rfl
    rw [this, specAccountTotal_append]
    have hdoc : (⟨doc.accounts, doc.transactions⟩ : AccountsDocument) = doc := rfl
    simp [hdoc]
  · rw [if_neg h, if_neg h]

theorem info_txAmount {p : Posting} {pi : PostingInfo} (h : p.info = some pi) :
    pi.tx_amount = p.txAmount := by
  cases p with
  | auto id => exact Option.noConfusion h
  | regular q =>
    injection h with h2
    rw [← h2]
    rfl
  | conversion q =>
    injection h with h2
    rw [← h2]
    rfl

/-- Master lemma about a successful run of the validation loop: the final
running total adds the transaction-currency sum of the postings; an auto
posting was recorded exactly when the list (or the incoming accumulator)
has one; at most one auto posting was tolerated; and every posting's
account was found. -/
theorem addTxLoop_ok (doc : AccountsDocument) (date : Date) :
    ∀ (ps : List Posting) (rt : ℚ) (ap : Option (Posting × Account)) (cur : Option String)
      (r : ℚ × Option (Posting × Account) × Option String),
      doc.addTxLoop date ps rt ap cur = .ok r →
      r.1 = rt + txCurrencySum ps ∧
      (r.2.1.isSome = true ↔ (ap.isSome = true ∨ ps.any Posting.isAuto = true)) ∧
      ps.countP (fun p => p.isAuto) + (if ap.isSome then 1 else 0) ≤ 1 ∧
      (∀ p ∈ ps, (doc.find_account p.account_id).isSome = true) := by
  intro ps
  induction ps with
  | nil =>
    intro rt ap cur r h
    simp only [AccountsDocument.addTxLoop] at h
    cases h
    refine ⟨by simp [txCurrencySum], by simp, ?_, by simp⟩
    simp only [List.countP_nil, Nat.zero_add]
    split <;> norm_num
  | cons p rest ih =>
    intro rt ap cur r h
    simp only [AccountsDocument.addTxLoop] at h
    split at h
    · exact absurd h (by simp)
    · rename_i account hfa
      split at h
      · exact absurd h (by simp)
      · rename_i hdate
        split at h
        · rename_i pi hpi
          split at h
          · exact absurd h (by simp)
          · rename_i hcur
            have hauto : p.isAuto = false := by
              cases p <;> simp_all [Posting.info, Posting.isAuto]
            split at h
            · rename_i c hc
              split at h
              · rename_i hceq
                obtain ⟨h1, h2, h3, h4⟩ := ih _ _ _ _ h
                refine ⟨?_, ?_, ?_, ?_⟩
                · rw [h1, info_txAmount hpi]
                  simp [txCurrencySum]
                  ring
                · simpa [List.any_cons, hauto] using h2
                · simpa [List.countP_cons, hauto] using h3
                · intro q hq
                  rcases hq with _ | hq
                  · simp [hfa]
                  · exact h4 q (by assumption)
              · exact absurd h (by simp)
            · rename_i hc
              obtain ⟨h1, h2, h3, h4⟩ := ih _ _ _ _ h
              refine ⟨?_, ?_, ?_, ?_⟩
              · rw [h1, info_txAmount hpi]
                simp [txCurrencySum]
                ring
              · simpa [List.any_cons, hauto] using h2
              · simpa [List.countP_cons, hauto] using h3
              · intro q hq
                rcases hq with _ | hq
                · simp [hfa]
                · exact h4 q (by assumption)
        · rename_i hpi
          have hauto : p.isAuto = true := by
            cases p <;> simp_all [Posting.info, Posting.isAuto]
          split at h
          · exact absurd h (by simp)
          · rename_i hap
            rw [Option.not_isSome_iff_eq_none] at hap
            subst hap
            obtain ⟨h1, h2, h3, h4⟩ := ih _ _ _ _ h
            refine ⟨?_, ?_, ?_, ?_⟩
            · rw [h1]
              have hz : p.txAmount = 0 := by
                cases p <;> simp_all [Posting.info, Posting.txAmount]
              simp [txCurrencySum, hz]
            · have hr : r.2.1.isSome = true := h2.mpr (Or.inl rfl)
              simp [hr, List.any_cons, hauto]
            · have h3s : List.countP (fun p => p.isAuto) rest + 1 ≤ 1 := by
                simpa using h3
              simp only [List.countP_cons, hauto, if_true, Option.isSome_none,
                Bool.false_eq_true, if_false]
              omega
            · intro q hq
              rcases hq with _ | hq
              · simp [hfa]
              · exact h4 q (by assumption)

/-- The validation loop itself never reports `NotBalanced` (that check
happens after the loop, and only in the no-auto-posting case). -/
theorem addTxLoop_ne_notBalanced (doc : AccountsDocument) (date : Date) :
    ∀ (ps : List Posting) (rt : ℚ) (ap : Option (Posting × Account)) (cur : Option String),
      doc.addTxLoop date ps rt ap cur ≠ .error .NotBalanced := by
  intro ps
  induction ps with
  | nil =>
    intro rt ap cur h
    simp [AccountsDocument.addTxLoop] at h
  | cons p rest ih =>
    intro rt ap cur h
    simp only [AccountsDocument.addTxLoop] at h
    split at h
    · simp at h
    · split at h
      · simp at h
      · split at h
        · split at h
          · simp at h
          · split at h
            · split at h
              · exact ih _ _ _ h
              · simp at h
            · exact ih _ _ _ h
        · split at h
          · simp at h
          · exact ih _ _ _ h

/-- On success, `add_transaction` pushed exactly one transaction carrying
the loop's final running total, and when no auto posting was present the
total passed the tolerance check. -/
theorem add_transaction_ok (doc : AccountsDocument) (date : Date) (descr : String)
    (ps : List Posting) (h : (doc.add_transaction date descr ps).1 = .ok ()) :
    ∃ r, doc.addTxLoop date ps 0 none none = .ok r ∧
      (doc.add_transaction date descr ps).2
        = { doc with transactions := doc.transactions ++ [⟨date, descr, r.1, ps⟩] } ∧
      (r.2.1 = none → ¬ ratAbs r.1 > TOLERANCE) := by
  unfold AccountsDocument.add_transaction at h ⊢
  cases hl : doc.addTxLoop date ps 0 none none with
  | error e =>
    rw [hl] at h
    simp at h
  | ok r =>
    rw [hl] at h
    obtain ⟨rt, ap, cur⟩ := r
    refine ⟨(rt, ap, cur), rfl, ?_⟩
    cases ap with
    | some pa =>
      obtain ⟨pp, account⟩ := pa
      cases cur with
      | some c =>
        dsimp only at h ⊢
        by_cases hc : c ≠ account.currency
        · rw [if_pos hc] at h
          exact absurd h (by simp)
        · rw [if_neg hc] at h ⊢
          exact ⟨rfl, fun hn => Option.noConfusion hn⟩
      | none => exact ⟨rfl, fun hn => Option.noConfusion hn⟩
    | none =>
      dsimp only at h ⊢
      by_cases habs : ratAbs rt > TOLERANCE
      · rw [if_pos habs] at h
        exact absurd h (by simp)
      · rw [if_neg habs] at h ⊢
        exact ⟨rfl, fun _ => habs⟩

theorem account_exists_of_find (doc : AccountsDocument) (id : AccountId)
    (h : (doc.find_account id).isSome = true) : doc.account_exists id = true := by
  unfold AccountsDocument.find_account at h
  unfold AccountsDocument.account_exists
  rw [List.any_eq_true]
  rw [List.find?_isSome] at h
  obtain ⟨a, ha, hpa⟩ := h
  exact ⟨a, ha, hpa⟩

/-- If a posting list holds at most one auto posting, holds `auto aid`, and
none of its non-auto postings is on account `aid`, then the postings on
account `aid` are exactly the one auto posting. -/
theorem filter_auto_singleton {ps : List Posting} {aid : AccountId}
    (hcount : ps.countP (fun p => p.isAuto) ≤ 1)
    (hmem : Posting.auto aid ∈ ps)
    (hsolo : ∀ p ∈ ps, p.isAuto = false → p.account_id ≠ aid) :
    ps.filter (fun p => p.account_id == aid) = [Posting.auto aid] := by
  induction ps with
  | nil => cases hmem
  | cons p rest ih =>
    cases hmem with
    | head =>
      have hc0 : rest.countP (fun p => p.isAuto) = 0 := by
        have hcc : List.countP (fun p => p.isAuto) (Posting.auto aid :: rest)
            = List.countP (fun p => p.isAuto) rest + 1 := by
          simp [List.countP_cons, Posting.isAuto]
        rw [hcc] at hcount
        omega
      rw [List.filter_cons]
      have hhead : ((Posting.auto aid).account_id == aid) = true := by
        simp [Posting.account_id]
      rw [if_pos hhead]
      have hrest : rest.filter (fun p => p.account_id == aid) = [] := by
        rw [List.filter_eq_nil_iff]
        intro q hq
        have hqna : q.isAuto = false := by
          have := List.countP_eq_zero.mp hc0 q hq
          simpa using this
        have := hsolo q (List.mem_cons_of_mem _ hq) hqna
        simpa using this
      rw [hrest]
    | tail _ hmem2 =>
      have hpauto : p.isAuto = false := by
        by_contra hpa
        rw [Bool.not_eq_false] at hpa
        have hr1 : 0 < rest.countP (fun p => p.isAuto) :=
          List.countP_pos_iff.mpr ⟨_, hmem2, rfl⟩
        have hcc : List.countP (fun p => p.isAuto) (p :: rest)
            = List.countP (fun p => p.isAuto) rest + 1 := by
          simp [List.countP_cons, hpa]
        rw [hcc] at hcount
        omega
      have hne := hsolo p (List.mem_cons_self _ _) hpauto
      rw [List.filter_cons, if_neg (by simpa using hne)]
      refine ih ?_ hmem2 (fun q hq hqa => hsolo q (List.mem_cons_of_mem _ hq) hqa)
      rw [List.countP_cons] at hcount
      omega

/-! ### C2, C3, C5 -/

/-- C2: an accepted transaction with no Auto posting has
`|signed sum of transaction-currency amounts| ≤ 0.005` (the stated amount
for a Regular posting, `account_amount * rate` for a Conversion posting);
a transaction containing an Auto posting is never rejected as unbalanced,
whatever that sum is. -/
theorem claim_C2_tolerance (doc : AccountsDocument) (date : Date) (descr : String)
    (postings : List Posting) :
    ((doc.add_transaction date descr postings).1 = .ok () →
      (∀ p ∈ postings, p.isAuto = false) → |txCurrencySum postings| ≤ TOLERANCE) ∧
    ((∃ p ∈ postings, p.isAuto = true) →
      (doc.add_transaction date descr postings).1 ≠ .error .NotBalanced) := by
  constructor
  · intro h hno
    obtain ⟨r, hr, hdoc, htol⟩ := add_transaction_ok doc date descr postings h
    obtain ⟨h1, h2, h3, h4⟩ := addTxLoop_ok doc date postings 0 none none r hr
    have hap : r.2.1 = none := by
      cases hrq : r.2.1 with
      | none => rfl
      | some v =>
        have hvs : r.2.1.isSome = true := by rw [hrq]; rfl
        rcases h2.mp hvs with hfalse | hany
        · simp at hfalse
        · rw [List.any_eq_true] at hany
          obtain ⟨p, hp, hpa⟩ := hany
          rw [hno p hp] at hpa
          cases hpa
    have hle := htol hap
    rw [ratAbs_eq_abs, h1, zero_add, not_lt] at hle
    exact hle
  · rintro ⟨p, hp, hpauto⟩ hcontra
    unfold AccountsDocument.add_transaction at hcontra
    cases hl : doc.addTxLoop date postings 0 none none with
    | error e =>
      rw [hl] at hcontra
      have he : e = .NotBalanced := by simpa using hcontra
      rw [he] at hl
      exact addTxLoop_ne_notBalanced doc date postings 0 none none hl
    | ok r =>
      rw [hl] at hcontra
      obtain ⟨h1, h2, h3, h4⟩ := addTxLoop_ok doc date postings 0 none none _ hl
      obtain ⟨rt, ap, cur⟩ := r
      have hsome : ap.isSome = true :=
        h2.mpr (Or.inr (by rw [List.any_eq_true]; exact ⟨p, hp, hpauto⟩))
      cases ap with
      | none => simp at hsome
      | some pa =>
        obtain ⟨pp, account⟩ := pa
        cases cur with
        | some c =>
          dsimp only at hcontra
          by_cases hc : c ≠ account.currency
          · rw [if_pos hc] at hcontra
            simp at hcontra
          · rw [if_neg hc] at hcontra
            simp at hcontra
        | none =>
          dsimp only at hcontra
          simp at hcontra

/-- Witness for C2: a balanced no-auto transaction's sum is within
tolerance, and a transaction with an auto posting is not rejected as
unbalanced even though its non-auto sum is 100. -/
theorem claim_C2_witness :
    |txCurrencySum [.regular ⟨⟨"A", .income⟩, 100, "GBP"⟩,
      .regular ⟨⟨"D", .income⟩, -100, "GBP"⟩]| ≤ TOLERANCE ∧
    (docC5.add_transaction ⟨2012, 5, 13⟩ "t" psC5solo).1 ≠ .error .NotBalanced :=
  ⟨(claim_C2_tolerance docC5 ⟨2012, 5, 13⟩ "t"
      [.regular ⟨⟨"A", .income⟩, 100, "GBP"⟩, .regular ⟨⟨"D", .income⟩, -100, "GBP"⟩]).1
      (by decide!) (by decide),
   (claim_C2_tolerance docC5 ⟨2012, 5, 13⟩ "t" psC5solo).2
      ⟨.auto ⟨"D", .income⟩, by decide, rfl⟩⟩

/-- C3: when `add_transaction` returns an error the document is left
completely unchanged, and the transactions sequence is appended to (by
exactly one transaction, accounts untouched) only on success. -/
theorem claim_C3_all_or_nothing (doc : AccountsDocument) (date : Date) (descr : String)
    (postings : List Posting) :
    (∀ e, (doc.add_transaction date descr postings).1 = .error e →
      (doc.add_transaction date descr postings).2 = doc) ∧
    ((doc.add_transaction date descr postings).1 = .ok () →
      (doc.add_transaction date descr postings).2.accounts = doc.accounts ∧
      ∃ tx, (doc.add_transaction date descr postings).2.transactions
        = doc.transactions ++ [tx]) := by
  constructor
  · intro e he
    unfold AccountsDocument.add_transaction at he ⊢
    cases hl : doc.addTxLoop date postings 0 none none with
    | error e2 => rfl
    | ok r =>
      rw [hl] at he
      obtain ⟨rt, ap, cur⟩ := r
      cases ap with
      | some pa =>
        obtain ⟨pp, account⟩ := pa
        cases cur with
        | some c =>
          dsimp only at he ⊢
          by_cases hc : c ≠ account.currency
          · rw [if_pos hc]
          · rw [if_neg hc] at he
            simp at he
        | none =>
          dsimp only at he
          simp at he
      | none =>
        dsimp only at he ⊢
        by_cases habs : ratAbs rt > TOLERANCE
        · rw [if_pos habs]
        · rw [if_neg habs] at he
          simp at he
  · intro h
    obtain ⟨r, hr, hdoc, _⟩ := add_transaction_ok doc date descr postings h
    rw [hdoc]
    exact ⟨rfl, ⟨⟨date, descr, r.1, postings⟩, rfl⟩⟩

/-- Witness for C3: a failing posting (unknown account) leaves the concrete
document unchanged, and a successful empty transaction touches no
accounts. -/
theorem claim_C3_witness :
    ((⟨[], []⟩ : AccountsDocument).add_transaction ⟨2012, 1, 1⟩ "t"
      [.regular ⟨⟨"A", .income⟩, 100, "GBP"⟩]).2 = (⟨[], []⟩ : AccountsDocument) ∧
    ((⟨[], []⟩ : AccountsDocument).add_transaction ⟨2012, 1, 1⟩ "t" []).2.accounts
      = (⟨[], []⟩ : AccountsDocument).accounts :=
  ⟨(claim_C3_all_or_nothing (⟨[], []⟩ : AccountsDocument) ⟨2012, 1, 1⟩ "t"
      [.regular ⟨⟨"A", .income⟩, 100, "GBP"⟩]).1 .AccountNotFound (by decide),
   ((claim_C3_all_or_nothing (⟨[], []⟩ : AccountsDocument) ⟨2012, 1, 1⟩ "t" []).2
      (by decide)).1⟩

/-- C5 as stated is false: in an accepted transaction whose auto posting's
account also receives a regular posting, the account's balance after the
call is not `before - (pre-auto running total)`.  Concretely: one GBP
account `A`, postings `[Regular(A, 100 GBP), Auto(A)]` are accepted; the
balance of `A` goes from 0 to 0 (the regular 100 and the auto -100 cancel),
while the claim demands 0 - 100 = -100. -/
theorem claim_C5_counterexample :
    ((⟨[⟨⟨"A", .income⟩, "GBP", ⟨2012, 4, 12⟩⟩], []⟩ : AccountsDocument).add_transaction
        ⟨2012, 5, 13⟩ "t" psC5dup).1 = .ok () ∧
    Posting.auto ⟨"A", .income⟩ ∈ psC5dup ∧
    (⟨[⟨⟨"A", .income⟩, "GBP", ⟨2012, 4, 12⟩⟩], []⟩ : AccountsDocument).balance ⟨"A", .income⟩
      = some 0 ∧
    ((⟨[⟨⟨"A", .income⟩, "GBP", ⟨2012, 4, 12⟩⟩], []⟩ : AccountsDocument).add_transaction
        ⟨2012, 5, 13⟩ "t" psC5dup).2.balance ⟨"A", .income⟩ = some 0 ∧
    (0 : ℚ) ≠ 0 - txCurrencySum psC5dup := by
  refine ⟨by decide!, by decide, by decide!, by decide!, ?_⟩
  have h100 : txCurrencySum psC5dup = 100 := by decide!
  rw [h100]
  norm_num

/-- C5 amended: for an accepted transaction with an Auto posting *whose
account receives no other posting in the transaction*, the account's
balance after the call is its balance before minus the transaction's
running total (the accumulated transaction-currency sum of the non-auto
postings). -/
theorem claim_C5_amended (doc : AccountsDocument) (date : Date) (descr : String)
    (postings : List Posting) (aid : AccountId)
    (hok : (doc.add_transaction date descr postings).1 = .ok ())
    (hmem : Posting.auto aid ∈ postings)
    (hsolo : ∀ p ∈ postings, p.isAuto = false → p.account_id ≠ aid) :
    ∃ b, doc.balance aid = some b ∧
      (doc.add_transaction date descr postings).2.balance aid
        = some (b - txCurrencySum postings) := by
  obtain ⟨r, hr, hdoc, _⟩ := add_transaction_ok doc date descr postings hok
  obtain ⟨h1, h2, h3, h4⟩ := addTxLoop_ok doc date postings 0 none none r hr
  have hfind : (doc.find_account aid).isSome = true := h4 _ hmem
  have hex : doc.account_exists aid = true := account_exists_of_find doc aid hfind
  have hcount1 : postings.countP (fun p => p.isAuto) ≤ 1 := by simpa using h3
  have hfilter := filter_auto_singleton hcount1 hmem hsolo
  refine ⟨specAccountTotal doc aid, by rw [balance_eq, if_pos hex], ?_⟩
  rw [hdoc]
  have hexpand : ({ doc with
      transactions := doc.transactions ++ [⟨date, descr, r.1, postings⟩] } : AccountsDocument)
      = ⟨doc.accounts, doc.transactions ++ [⟨date, descr, r.1, postings⟩]⟩ := rfl
  have hex2 : (⟨doc.accounts, doc.transactions ++ [⟨date, descr, r.1, postings⟩]⟩
      : AccountsDocument).account_exists aid = true := hex
  rw [hexpand, balance_eq, if_pos hex2, specAccountTotal_append]
  have hdoc2 : (⟨doc.accounts, doc.transactions⟩ : AccountsDocument) = doc := rfl
  rw [hdoc2]
  have hpostings : (⟨date, descr, r.1, postings⟩ : Transaction).postings = postings := rfl
  rw [hpostings, hfilter]
  have hcontrib : (⟨date, descr, r.1, postings⟩ : Transaction).contribution (.auto aid)
      = -r.1 := rfl
  rw [List.map_singleton, hcontrib, List.sum_singleton, h1, zero_add]
  ring_nf

/-- Witness for the amended C5 at a concrete document: accounts A and D in
GBP, postings `[Regular(A, 100 GBP), Auto(D)]`; D's balance goes from 0 to
`0 - 100`. -/
theorem claim_C5_witness :
    (docC5.add_transaction ⟨2012, 5, 13⟩ "t" psC5solo).2.balance ⟨"D", .income⟩
      = some (0 - txCurrencySum psC5solo) := by
  obtain ⟨b, hb, h2⟩ := claim_C5_amended docC5 ⟨2012, 5, 13⟩ "t" psC5solo ⟨"D", .income⟩
    (by decide!) (by decide) (by decide)
  have hb0 : docC5.balance ⟨"D", .income⟩ = some (0 : ℚ) := by decide!
  rw [hb0] at hb
  injection hb with hbe
  rw [← hbe] at h2
  exact h2

/-! ### C7, C10, C4, C8 -/

/-- C7's claim read uniformly is false: the lexer's reported column is the
1-indexed distance back to the most recent newline on lines after the
first, but on the first line it is the bare cursor offset, one less.
Concretely (the repository doctest's own example), lexing
`"2023-02-01 open"` attaches column 11 to the `open` token at cursor 11,
while the 1-indexed distance from that cursor back to the buffer start (no
newline precedes it) is 12 — the same counting that on a later line yields
column 1 for the cursor immediately after a newline. -/
theorem claim_C7_counterexample :
    tokens ("2023-02-01 open".toList)
      = .ok [⟨.date "2023-02-01", 1, 1⟩, ⟨.directiveOpen, 1, 11⟩] ∧
    lastNewlinePos (("2023-02-01 open".toList).take 11) = none ∧
    specColumnClaim ("2023-02-01 open".toList) 11 = 12 ∧
    (11 : Nat) ≠ 12 :=
  ⟨by decide, by decide, by decide, by decide⟩

/-- C7 amended: at every cursor position the reported line is 1 plus the
number of newline characters strictly before the cursor, and the reported
column is the 1-indexed distance back to the most recent newline when one
precedes the cursor; when none does, it is the cursor offset itself,
except that the very start of the buffer reports column 1. -/
theorem claim_C7_position (buffer : List Char) (cursor : Nat)
    (h : cursor ≤ buffer.length) :
    currentLine buffer cursor = specLine buffer cursor ∧
    currentColumn buffer cursor = specColumnAmended buffer cursor := by
  constructor
  · unfold currentLine specLine linesCount
    by_cases h0 : cursor = 0
    · subst h0
      simp
    · have hne : (buffer.take cursor).isEmpty = false := by
        rw [List.isEmpty_eq_false_iff_exists_mem]
        have hlen : 0 < (buffer.take cursor).length := by
          rw [List.length_take]
          omega
        exact List.exists_mem_of_length_pos hlen
      by_cases hl : (buffer.take cursor).getLast? = some '\n' <;>
        simp [h0, hne, hl] <;> omega
  · unfold currentColumn specColumnAmended
    by_cases h0 : cursor = 0
    · subst h0
      simp [lastNewlinePos]
    · rw [if_neg h0]
      cases hln : lastNewlinePos (buffer.take cursor) with
      | none => simp [hln, h0]
      | some j => simp [hln]

/-- Witness for the amended C7 at the cursor just after `c` in
`"ab\ncd"`. -/
theorem claim_C7_witness :
    currentLine ("ab\ncd".toList) 4 = specLine ("ab\ncd".toList) 4 ∧
    currentColumn ("ab\ncd".toList) 4 = specColumnAmended ("ab\ncd".toList) 4 :=
  claim_C7_position ("ab\ncd".toList) 4 (by decide)

/-- C10: whenever the parser's open-directive handler hits an `AccountId`
that is already present, it returns the `ParseError` with message
"account already exists" and line and column both 0, whatever the
directive's own position, the date, or the rest of the stream. -/
theorem claim_C10_duplicate_open (doc : AccountsDocument) (d : String)
    (line column : Nat) (account : AccountId) (aLine aCol : Nat)
    (currency : String) (cLine cCol : Nat)
    (rest : List (Except TokenizeError Token)) (dv : Date)
    (hd : parseDate d = some dv)
    (hdup : ∃ a ∈ doc.accounts, a.id = ⟨account.name, account.type_⟩) :
    openDirective doc d line column
        (.ok ⟨.account account, aLine, aCol⟩ :: .ok ⟨.currency currency, cLine, cCol⟩ :: rest)
      = .err ⟨"account already exists", 0, 0⟩ := by
  have hany : (doc.accounts.any
      (fun a => a.id == (⟨account.name, account.type_⟩ : AccountId))) = true := by
    rw [List.any_eq_true]
    obtain ⟨a, ha, hid⟩ := hdup
    exact ⟨a, ha, by simpa using hid⟩
  have hopen : doc.open_an_account ⟨⟨account.name, account.type_⟩, currency, dv⟩
      = .error .AccountAlreadyExists := by
    unfold AccountsDocument.open_an_account
    rw [if_pos hany]
  rw [openDirective.eq_def]
  rw [hd]
  simp only [hopen]

/-- Witness for C10: reopening `Assets:Checking` in a document that already
holds it, plus an end-to-end run of `parse` on a stream containing the same
`open` directive twice (the second, on line 2, is reported at (0,0)). -/
theorem claim_C10_witness :
    openDirective ⟨[⟨⟨"Checking", .asset⟩, "GBP", ⟨2012, 1, 1⟩⟩], []⟩ "2013-02-02" 7 12
        [.ok ⟨.account ⟨"Checking", .asset⟩, 7, 17⟩, .ok ⟨.currency "GBP", 7, 30⟩]
      = .err ⟨"account already exists", 0, 0⟩ ∧
    parse [.ok ⟨.optionLine, 1, 1⟩, .ok ⟨.newline, 1, 33⟩,
        .ok ⟨.date "2012-01-01", 2, 1⟩, .ok ⟨.directiveOpen, 2, 12⟩,
        .ok ⟨.account ⟨"Checking", .asset⟩, 2, 17⟩, .ok ⟨.currency "GBP", 2, 33⟩,
        .ok ⟨.newline, 2, 36⟩,
        .ok ⟨.date "2012-01-02", 3, 1⟩, .ok ⟨.directiveOpen, 3, 12⟩,
        .ok ⟨.account ⟨"Checking", .asset⟩, 3, 17⟩, .ok ⟨.currency "GBP", 3, 33⟩,
        .ok ⟨.newline, 3, 36⟩]
      = .err ⟨"account already exists", 0, 0⟩ :=
  ⟨claim_C10_duplicate_open ⟨[⟨⟨"Checking", .asset⟩, "GBP", ⟨2012, 1, 1⟩⟩], []⟩
    "2013-02-02" 7 12 ⟨"Checking", .asset⟩ 7 17 "GBP" 7 30 [] ⟨2013, 2, 2⟩
    (by decide) ⟨⟨⟨"Checking", .asset⟩, "GBP", ⟨2012, 1, 1⟩⟩, by decide, rfl⟩,
   by decide⟩

/-- C4 is the spec's intent but the code panics instead: when the Ledger
rejects a submitted posting block, `parse` calls
`add_transaction(..).unwrap()` (parser.rs lines 244, 259, 273, each marked
`//TODO: unwraps`), so the validation failure terminates the process
abnormally rather than being returned as a `ParseError`.  On the concrete
input below — a transaction posting to an account that was never opened —
the whole pipeline ends in the panic outcome carrying `AccountNotFound`. -/
theorem claim_C4_panic_on_ledger_error :
    (tokens ("option \"operating_currency\" \"GBP\"\n2012-01-13 * \"Lunch\"\n  Assets:Checking  100 GBP\n\n".toList)).map
        (fun ts => parse (ts.map Except.ok))
      = .ok (.panic (.addTransactionFailed .AccountNotFound)) := by
  decide!

/-- C8 is the spec's intent but the code drops the text: the lexer's
TxDescription token carries no payload (tokenizer.rs lines 351-365 discard
the matched text), and `parse` stores the literal `"todo"` as every
transaction's description (parser.rs lines 244, 259, 273, marked
`//TODO: .. + tx description`).  Lexing and parsing a document whose
transaction is described as `"Groceries"` yields a transaction whose
stored description is `"todo"`. -/
theorem claim_C8_description_not_retained :
    (tokens ("option \"operating_currency\" \"GBP\"\n2023-02-03 * \"Groceries\"\n\n".toList)).map
        (fun ts => ((ts.map Token.kind).contains TokenKind.txDescription,
          parse (ts.map Except.ok)))
      = .ok (true, .ok ⟨[], [⟨⟨2023, 2, 3⟩, "todo", 0, []⟩]⟩) ∧
    "todo" ≠ "Groceries" :=
  ⟨by decide!, by decide⟩
